import Mathlib

/-!
Shallow embedding of the ray-tracer core of this repository
(src/src/{geometry,matrix,transform,canvas,light,pattern,material,object,
intersection,world}.rs) over exact rational scalars, together with theorems
settling the frozen claims about it.

Scalar model: the Rust code computes with `f64`.  The embedding uses `ℚ` with
exact arithmetic; `sqrtQ` models `f64::sqrt` and is exact precisely on perfect
squares of rationals, which covers every concrete scene evaluated in this file
(there `f64::sqrt` is exact as well).  `powQ` models `f64::powf` for
nonnegative integer exponents, the only exponents the code uses (material
shininess).  Division by zero in `ℚ` yields `0` where `f64` would yield
`inf`/`NaN`; no concrete evaluation below divides by zero.  The `NaN`-aware
intersection comparator of `intersection.rs` is modelled separately on
`Option ℚ` (`none` plays the role of `NaN`).

Rust's `slice::sort_unstable` guarantees only that the result is a sorted
permutation of the input, with the relative order of equal elements
unspecified.  The executable pipeline below uses a deterministic sorted
permutation (`List.insertionSort`), and the guarantee itself is captured by
the relation `sortOutcome` (any sorted permutation), which is what the
ordering claims are stated against.
-/

namespace RT

/-- Epsilon constant from macros.rs (`EPSILON = 1.0e-4`). -/
def EPSILON : ℚ := 1 / 10000

/-- Model of `f64::sqrt` on exact rationals: the exact nonnegative square root
when the argument is the square of a rational, `0` otherwise.  Every use on a
concrete input in this file falls in the exact case. -/
def sqrtQ (x : ℚ) : ℚ :=
  if 0 ≤ x ∧ Nat.sqrt x.num.natAbs * Nat.sqrt x.num.natAbs = x.num.natAbs
      ∧ Nat.sqrt x.den * Nat.sqrt x.den = x.den then
    (Nat.sqrt x.num.natAbs : ℚ) / (Nat.sqrt x.den : ℚ)
  else 0

/-- Model of `f64::powf` for nonnegative integer exponents, the only exponents
reached by the code (material shininess, default `200.0`). -/
def powQ (x p : ℚ) : ℚ :=
  if p.den = 1 ∧ 0 ≤ p.num then x ^ p.num.toNat else 0

/-- 3-vector from geometry.rs (`Vector(pub f64, pub f64, pub f64)`). -/
structure Vector where
  x : ℚ
  y : ℚ
  z : ℚ
  deriving DecidableEq

/-- 3-point from geometry.rs (`Point(pub f64, pub f64, pub f64)`). -/
structure Point where
  x : ℚ
  y : ℚ
  z : ℚ
  deriving DecidableEq

instance : Add Vector := ⟨fun a b => ⟨a.x + b.x, a.y + b.y, a.z + b.z⟩⟩

instance : Sub Vector := ⟨fun a b => ⟨a.x - b.x, a.y - b.y, a.z - b.z⟩⟩

instance : Neg Vector := ⟨fun a => ⟨-a.x, -a.y, -a.z⟩⟩

instance : HMul Vector ℚ Vector := ⟨fun a r => ⟨a.x * r, a.y * r, a.z * r⟩⟩

instance : HAdd Point Vector Point := ⟨fun p v => ⟨p.x + v.x, p.y + v.y, p.z + v.z⟩⟩

instance : HSub Point Point Vector := ⟨fun a b => ⟨a.x - b.x, a.y - b.y, a.z - b.z⟩⟩

instance : HSub Point Vector Point := ⟨fun p v => ⟨p.x - v.x, p.y - v.y, p.z - v.z⟩⟩

/-- Dot product, from geometry.rs. -/
def Vector.dot (a b : Vector) : ℚ := a.x * b.x + a.y * b.y + a.z * b.z

/-- Vector magnitude, from geometry.rs (`(x² + y² + z²).sqrt()`). -/
def Vector.magnitude (a : Vector) : ℚ := sqrtQ (a.x * a.x + a.y * a.y + a.z * a.z)

/-- Normalization, from geometry.rs (`let n = 1. / self.magnitude(); self * n`). -/
def Vector.normalize (a : Vector) : Vector := a * (1 / a.magnitude)

/-- Modelled from the spec: `Vector::reflect` is used by material.rs and
intersection.rs but its definition is missing from src/ geometry.rs.  Spec §2
lists `reflect` among the vector algebra and §8 fixes it by the reflection law
(`reflect Vector(1,-1,0) off Vector(0,1,0) = Vector(1,1,0)`):
`v.reflect n = v − n·2·(v·n)`. -/
def Vector.reflect (v n : Vector) : Vector := v - n * (2 * v.dot n)

/-- Color from canvas.rs (`Color(pub f64, pub f64, pub f64)`). -/
structure Color where
  r : ℚ
  g : ℚ
  b : ℚ
  deriving DecidableEq

instance : Add Color := ⟨fun a b => ⟨a.r + b.r, a.g + b.g, a.b + b.b⟩⟩

instance : Sub Color := ⟨fun a b => ⟨a.r - b.r, a.g - b.g, a.b - b.b⟩⟩

instance : Mul Color := ⟨fun a b => ⟨a.r * b.r, a.g * b.g, a.b * b.b⟩⟩

instance : HMul Color ℚ Color := ⟨fun a s => ⟨a.r * s, a.g * s, a.b * s⟩⟩

/-- Source `Color::black()` from canvas.rs. -/
def Color.black : Color := ⟨0, 0, 0⟩

/-- Source `Color::white()` from canvas.rs. -/
def Color.white : Color := ⟨1, 1, 1⟩

/-- 4×4 matrix from matrix.rs (`Matrix(pub [[f64; 4]; 4])`). -/
abbrev Matrix := Fin 4 → Fin 4 → ℚ

/-- Source `Matrix::id` from matrix.rs. -/
def Matrix.id : Matrix :=
  ![![1, 0, 0, 0], ![0, 1, 0, 0], ![0, 0, 1, 0], ![0, 0, 0, 1]]

/-- Source `Matrix::transpose` from matrix.rs (entry `(i,j)` becomes entry `(j,i)`). -/
def Matrix.transpose (m : Matrix) : Matrix := fun i j => m j i

/-- Matrix multiplication from matrix.rs:
`r[i][j] = m[i][0]*n[0][j] + m[i][1]*n[1][j] + m[i][2]*n[2][j] + m[i][3]*n[3][j]`. -/
def Matrix.mulM (m n : Matrix) : Matrix := fun i j =>
  m i 0 * n 0 j + m i 1 * n 1 j + m i 2 * n 2 j + m i 3 * n 3 j

/-- Source `Mul<Point> for Matrix` from matrix.rs (homogeneous weight 1). -/
def Matrix.mulP (a : Matrix) (p : Point) : Point :=
  ⟨a 0 0 * p.x + a 0 1 * p.y + a 0 2 * p.z + a 0 3 * 1,
   a 1 0 * p.x + a 1 1 * p.y + a 1 2 * p.z + a 1 3 * 1,
   a 2 0 * p.x + a 2 1 * p.y + a 2 2 * p.z + a 2 3 * 1⟩

/-- Source `Mul<Vector> for Matrix` from matrix.rs (homogeneous weight 0). -/
def Matrix.mulV (a : Matrix) (v : Vector) : Vector :=
  ⟨a 0 0 * v.x + a 0 1 * v.y + a 0 2 * v.z + a 0 3 * 0,
   a 1 0 * v.x + a 1 1 * v.y + a 1 2 * v.z + a 1 3 * 0,
   a 2 0 * v.x + a 2 1 * v.y + a 2 2 * v.z + a 2 3 * 0⟩

/-- Affine transform paired with its inverse, from transform.rs. -/
structure Transform where
  m : Matrix
  minv : Matrix
  deriving DecidableEq

/-- Source `Transform::default` from transform.rs (identity pair). -/
def Transform.default : Transform := ⟨Matrix.id, Matrix.id⟩

/-- Source `Transform::translation` from transform.rs, with its algebraic inverse. -/
def Transform.translation (x y z : ℚ) : Transform :=
  ⟨![![1, 0, 0, x], ![0, 1, 0, y], ![0, 0, 1, z], ![0, 0, 0, 1]],
   ![![1, 0, 0, -x], ![0, 1, 0, -y], ![0, 0, 1, -z], ![0, 0, 0, 1]]⟩

/-- Source `Transform::scaling` from transform.rs, with its algebraic inverse. -/
def Transform.scaling (x y z : ℚ) : Transform :=
  ⟨![![x, 0, 0, 0], ![0, y, 0, 0], ![0, 0, z, 0], ![0, 0, 0, 1]],
   ![![1 / x, 0, 0, 0], ![0, 1 / y, 0, 0], ![0, 0, 1 / z, 0], ![0, 0, 0, 1]]⟩

/-- Source `Transform::inverse` from transform.rs: swaps the two stored matrices. -/
def Transform.inverse (t : Transform) : Transform := ⟨t.minv, t.m⟩

/-- Source `Mul for Transform` from transform.rs: forward matrices multiply in order,
inverse matrices in reversed order. -/
def Transform.mul (a b : Transform) : Transform :=
  ⟨a.m.mulM b.m, b.minv.mulM a.minv⟩

/-- Ray from ray.rs. -/
structure Ray where
  origin : Point
  direction : Vector
  deriving DecidableEq

/-- Source `Ray::position` from ray.rs (`origin + direction * t`). -/
def Ray.position (r : Ray) (t : ℚ) : Point := r.origin + r.direction * t

/-- Modelled from the spec: the `Transformable` impl for `Ray` consumed by
object.rs (`ray.transform(self.transform.inverse())`) is missing from src/
ray.rs.  Per spec §4.2 a ray is mapped through a transform by applying the
transform's forward matrix to origin and direction (for `t.inverse()` this
applies the stored inverse matrix, matching the scaled-sphere test values). -/
def Ray.transform (r : Ray) (t : Transform) : Ray :=
  ⟨t.m.mulP r.origin, t.m.mulV r.direction⟩

/-- Modelled from the spec: the `Transformable` impl for `Point` consumed by
pattern.rs (`world_point.transform(object.transform.inverse())`) is missing
from src/ geometry.rs; spec §4.1/§4.7 apply the transform's forward matrix. -/
def Point.transform (p : Point) (t : Transform) : Point := t.m.mulP p

/-- Point light from light.rs. -/
structure PointLight where
  position : Point
  intensity : Color
  deriving DecidableEq

/-- Pattern variants from pattern.rs. -/
inductive PatternType where
  | stripe (a b : Color)
  | gradient (a b : Color)
  | ring (a b : Color)
  | checkers (a b : Color)
  deriving DecidableEq

/-- Pattern from pattern.rs: a variant plus its own transform. -/
structure Pattern where
  pattern : PatternType
  transform : Transform
  deriving DecidableEq

/-- Source `Pattern::pattern_at` from pattern.rs.  Rust's `%` on `isize` truncates
toward zero, which is `Int.tmod`. -/
def Pattern.pattern_at (self : Pattern) (p : Point) : Color :=
  match self.pattern with
  | .stripe a b => if (⌊p.x⌋).tmod 2 = 0 then a else b
  | .gradient a b =>
      let distance := b - a
      let fraction := p.x - (⌊p.x⌋ : ℚ)
      a + distance * fraction
  | .ring a b => if (⌊sqrtQ (p.x ^ 2 + p.z ^ 2)⌋).tmod 2 = 0 then a else b
  | .checkers a b => if (⌊p.x⌋ + ⌊p.y⌋ + ⌊p.z⌋).tmod 2 = 0 then a else b

/-- Material from material.rs. -/
structure Material where
  color : Color
  ambient : ℚ
  diffuse : ℚ
  specular : ℚ
  shininess : ℚ
  reflective : ℚ
  transparency : ℚ
  refractive_index : ℚ
  pattern : Option Pattern
  deriving DecidableEq

/-- Source `Material::default` from material.rs. -/
def Material.default : Material :=
  { color := ⟨1, 1, 1⟩, ambient := 1 / 10, diffuse := 9 / 10, specular := 9 / 10,
    shininess := 200, reflective := 0, transparency := 0, refractive_index := 1,
    pattern := none }

/-- Shape tag from object.rs. -/
inductive Shape where
  | sphere
  | plane
  deriving DecidableEq

/-- Object from object.rs: shape tag, transform, material.  The `uuid` field is
modelled from the spec: intersection.rs reads `i.object.uuid`, but the field's
declaration and its construction are missing from src/ object.rs.  Spec §9
specifies an opaque, globally unique identity token attached to each Object at
construction; it is represented here by a `Nat` supplied by the scene builder,
whose obligation the global uniqueness is. -/
structure Object where
  shape : Shape
  transform : Transform
  material : Material
  uuid : Nat
  deriving DecidableEq

/-- Source `Object::sphere` from object.rs (default transform and material); the
identity token is the scene builder's input, as explained on `Object`. -/
def Object.sphere (uuid : Nat) : Object :=
  ⟨Shape.sphere, Transform.default, Material.default, uuid⟩

/-- Source `Object::plane` from object.rs (default transform and material). -/
def Object.plane (uuid : Nat) : Object :=
  ⟨Shape.plane, Transform.default, Material.default, uuid⟩

/-- Source `Pattern::pattern_at_object` from pattern.rs: map the world point through
the object's inverse transform, then the pattern's own inverse transform. -/
def Pattern.pattern_at_object (self : Pattern) (object : Object) (world_point : Point) : Color :=
  let object_point := world_point.transform object.transform.inverse
  let pattern_point := object_point.transform self.transform.inverse
  self.pattern_at pattern_point

/-- Source `Material::lighting` from material.rs (Phong shading with optional
pattern). -/
def Material.lighting (self : Material) (object : Object) (light : PointLight)
    (point : Point) (eyev normalv : Vector) (in_shadow : Bool) : Color :=
  let color :=
    match self.pattern with
    | some p => p.pattern_at_object object point
    | none => self.color
  let effective_color := color * light.intensity
  let lightv := (light.position - point).normalize
  let ambient := effective_color * self.ambient
  let light_dot_normal := lightv.dot normalv
  let ds : Color × Color :=
    if light_dot_normal < 0 ∨ in_shadow then
      (⟨0, 0, 0⟩, ⟨0, 0, 0⟩)
    else
      let diffuse := effective_color * self.diffuse * light_dot_normal
      let reflectv := -(lightv.reflect normalv)
      let reflect_dot_eye := reflectv.dot eyev
      if reflect_dot_eye ≤ 0 then
        (diffuse, ⟨0, 0, 0⟩)
      else
        let factor := powQ reflect_dot_eye self.shininess
        (diffuse, light.intensity * self.specular * factor)
  ambient + ds.1 + ds.2

/-- Candidate hit from intersection.rs: ray parameter `t` and the object hit.
`t` is a plain rational here; the `NaN`-aware comparator of the source is
modelled separately by `cmpF` on `Option ℚ`.  No constructor in the pipeline
produces a `NaN` parameter. -/
structure Intersection where
  t : ℚ
  object : Object
  deriving DecidableEq

/-- The `Ord` impl for `Intersection` from intersection.rs, on `f64` values
modelled as `Option ℚ` with `none` playing `NaN`: a `NaN` on the left compares
`Greater`, a `NaN` on the right compares `Less`, otherwise numeric order. -/
def cmpF (a b : Option ℚ) : Ordering :=
  match a with
  | none => Ordering.gt
  | some x =>
      match b with
      | none => Ordering.lt
      | some y => if x > y then Ordering.gt else if x < y then Ordering.lt else Ordering.eq

/-- Intersection collection from intersection.rs (`Intersections(Vec<..>)`). -/
abbrev Intersections := List Intersection

/-- The order by which the source comparator sorts `NaN`-free collections:
ascending ray parameter. -/
def leT (a b : Intersection) : Prop := a.t ≤ b.t

instance : DecidableRel leT := fun a b => inferInstanceAs (Decidable (a.t ≤ b.t))

/-- Deterministic sorted permutation standing in for `slice::sort_unstable`
(whose contract fixes the result only up to the order of equal elements; the
relational contract is `sortOutcome` below). -/
def sortI (l : List Intersection) : List Intersection := List.insertionSort leT l

/-- Source `Intersections::push` from intersection.rs: append then re-sort. -/
def Intersections.push (xs : Intersections) (element : Intersection) : Intersections :=
  sortI (xs ++ [element])

/-- Source `Intersections::append` from intersection.rs: concatenate then re-sort. -/
def Intersections.append (xs elements : Intersections) : Intersections :=
  sortI (xs ++ elements)

/-- Source `Intersections::hit` from intersection.rs: the first element (with its
index) whose `t` is nonnegative (`NaN` fails the `t >= 0.` test as well). -/
def Intersections.hit (xs : Intersections) : Option (Nat × Intersection) :=
  xs.enum.find? fun p => decide (0 ≤ p.2.t)

/-- Source `Object::intersect` from object.rs: transform the ray by the object's
inverse transform, then dispatch on the shape tag. -/
def Object.intersect (self : Object) (ray : Ray) : Intersections :=
  let local_ray := ray.transform self.transform.inverse
  match self.shape with
  | Shape.sphere =>
      let sphere_to_ray := local_ray.origin - (⟨0, 0, 0⟩ : Point)
      let a := local_ray.direction.dot local_ray.direction
      let b := 2 * local_ray.direction.dot sphere_to_ray
      let c := sphere_to_ray.dot sphere_to_ray - 1
      let discriminant := b ^ 2 - 4 * a * c
      if discriminant < 0 then
        []
      else
        (Intersections.push [] ⟨(-b - sqrtQ discriminant) / (2 * a), self⟩).push
          ⟨(-b + sqrtQ discriminant) / (2 * a), self⟩
  | Shape.plane =>
      if EPSILON ≤ |local_ray.direction.y| then
        Intersections.push [] ⟨-local_ray.origin.y / local_ray.direction.y, self⟩
      else
        []

/-- Source `Object::normal_at` from object.rs: local normal mapped back through the
transpose of the inverse transform, then normalized. -/
def Object.normal_at (self : Object) (p : Point) : Vector :=
  let local_point := self.transform.minv.mulP p
  let local_normal :=
    match self.shape with
    | Shape.sphere => local_point - (⟨0, 0, 0⟩ : Point)
    | Shape.plane => (⟨0, 1, 0⟩ : Vector)
  let world_normal := self.transform.minv.transpose.mulV local_normal
  world_normal.normalize

/-- Derived shading geometry from intersection.rs. -/
structure Computations where
  t : ℚ
  object : Object
  point : Point
  eyev : Vector
  normalv : Vector
  reflectv : Vector
  inside : Bool
  over_point : Point
  under_point : Point
  n1 : ℚ
  n2 : ℚ
  deriving DecidableEq

/-- One step of the containment stack of `prepare_computations`
(intersection.rs lines 92–96): remove the first entry carrying the object's
identity if present, otherwise push `(uuid, refractive_index)` at the end. -/
def containersToggle (containers : List (Nat × ℚ)) (o : Object) : List (Nat × ℚ) :=
  match containers.findIdx? (fun e => e.1 = o.uuid) with
  | some k => containers.eraseIdx k
  | none => containers ++ [(o.uuid, o.material.refractive_index)]

/-- Refractive index at the top of the containment stack (the last pushed
entry), `1` if the stack is empty — the `containers.len() == 0` test of
intersection.rs. -/
def topRefr (containers : List (Nat × ℚ)) : ℚ :=
  match containers.getLast? with
  | none => 1
  | some e => e.2

/-- The `for`-loop of `prepare_computations` computing `(n1, n2)`: walk the
intersections with their index, toggling the containment stack, and when the
hit index is reached record `n1` before and `n2` after that toggle and break.
If the loop exhausts the list without reaching the hit index both keep their
initial value `1`. -/
def n1n2Loop : List Intersection → Nat → Nat → List (Nat × ℚ) → ℚ × ℚ
  | [], _, _, _ => (1, 1)
  | i :: rest, idx, hit_index, containers =>
      if idx = hit_index then
        let n1 := topRefr containers
        let containers2 := containersToggle containers i.object
        (n1, topRefr containers2)
      else
        n1n2Loop rest (idx + 1) hit_index (containersToggle containers i.object)

/-- Source `Intersection::prepare_computations` from intersection.rs. -/
def Intersection.prepare_computations (self : Intersection) (r : Ray)
    (hit_index : Nat) (xs : Intersections) : Computations :=
  let n12 := n1n2Loop xs 0 hit_index []
  let t := self.t
  let object := self.object
  let point := r.position t
  let eyev := -r.direction
  let normalv0 := object.normal_at point
  let inside := decide (normalv0.dot eyev < 0)
  let normalv := if inside then -normalv0 else normalv0
  let over_point := point + normalv * EPSILON
  let under_point := point - normalv * EPSILON
  let reflectv := r.direction.reflect normalv
  { t := t, object := object, point := point, eyev := eyev, normalv := normalv,
    reflectv := reflectv, inside := inside, over_point := over_point,
    under_point := under_point, n1 := n12.1, n2 := n12.2 }

/-- Scene aggregate from world.rs. -/
structure World where
  objects : List Object
  lights : List PointLight
  deriving DecidableEq

/-- Source `World::intersect` from world.rs: append every object's intersections into
one collection (each `append` re-sorts), then sort once more. -/
def World.intersect (self : World) (r : Ray) : Intersections :=
  sortI (self.objects.foldl (fun xs o => Intersections.append xs (o.intersect r)) [])

/-- Source `World::is_shadowed` from world.rs: cast a ray from the point toward the
light source; shadowed when some hit lies strictly closer than the light. -/
def World.is_shadowed (self : World) (source : Point) (point : Point) : Bool :=
  let v := source - point
  let distance := v.magnitude
  let direction := v.normalize
  let r : Ray := ⟨point, direction⟩
  let intersections := self.intersect r
  match intersections.hit with
  | some (_, i) => decide (i.t < distance)
  | none => false

/-- Source `World::reflected_color` from world.rs, with the recursive
`color_at(reflect_ray, remaining - 1)` call abstracted as `recur` (the knot is
tied in `colorGo` below, by structural recursion on `remaining` exactly as the
Rust recursion decreases it). -/
def reflectedColorWith (recur : Ray → Color) (comps : Computations)
    (remaining : Nat) : Color :=
  if comps.object.material.reflective = 0 ∨ remaining = 0 then
    Color.black
  else
    let reflect_ray : Ray := ⟨comps.over_point, comps.reflectv⟩
    let color := recur reflect_ray
    color * comps.object.material.reflective

/-- Source `World::refracted_color` from world.rs (Snell's law, total internal
reflection yields black), recursive call abstracted as in
`reflectedColorWith`. -/
def refractedColorWith (recur : Ray → Color) (comps : Computations)
    (remaining : Nat) : Color :=
  if comps.object.material.transparency = 0 ∨ remaining = 0 then
    Color.black
  else
    let nr := comps.n1 / comps.n2
    let cos_i := comps.eyev.dot comps.normalv
    let sin2_t := nr ^ 2 * (1 - cos_i ^ 2)
    if 1 < sin2_t then
      Color.black
    else
      let cos_t := sqrtQ (1 - sin2_t)
      let direction := comps.normalv * (nr * cos_i - cos_t) - comps.eyev * nr
      let refract_ray : Ray := ⟨comps.under_point, direction⟩
      recur refract_ray * comps.object.material.transparency

/-- Source `World::shade_hit` from world.rs: a fold over the lights starting from
black; each iteration adds the shadow-tested Phong contribution of its light
and the reflected and refracted colors. -/
def shadeHitWith (self : World) (recur : Ray → Color) (comps : Computations)
    (remaining : Nat) : Color :=
  self.lights.foldl
    (fun acc light =>
      let shadowed := self.is_shadowed light.position comps.over_point
      let surface := acc +
        comps.object.material.lighting comps.object light comps.over_point
          comps.eyev comps.normalv shadowed
      let reflected := reflectedColorWith recur comps remaining
      let refracted := refractedColorWith recur comps remaining
      surface + reflected + refracted)
    Color.black

/-- Body of `World::color_at` from world.rs: intersect, select the hit with
its index, derive `Computations`, shade; black when there is no hit. -/
def colorBody (self : World) (recur : Ray → Color) (remaining : Nat)
    (r : Ray) : Color :=
  let xs := self.intersect r
  match xs.hit with
  | some (idx, h) => shadeHitWith self recur (h.prepare_computations r idx xs) remaining
  | none => Color.black

/-- The mutual recursion `color_at` / `shade_hit` / `reflected_color` /
`refracted_color` of world.rs decreases `remaining` on every secondary-ray
cast; here it is realized by structural recursion on `remaining`.  At depth 0
the callback is never consulted (both secondary-color functions return black
first). -/
def colorGo (self : World) : Nat → Ray → Color
  | 0, r => colorBody self (fun _ => Color.black) 0 r
  | n + 1, r => colorBody self (colorGo self n) (n + 1) r

/-- Source `World::color_at` from world.rs. -/
def World.color_at (self : World) (r : Ray) (remaining : Nat) : Color :=
  colorGo self remaining r

/-- Source `World::shade_hit` from world.rs, recursion instantiated with
`color_at (·, remaining - 1)` as in the source. -/
def World.shade_hit (self : World) (comps : Computations) (remaining : Nat) : Color :=
  shadeHitWith self (fun ray => self.color_at ray (remaining - 1)) comps remaining

/-- Source `World::reflected_color` from world.rs. -/
def World.reflected_color (self : World) (comps : Computations) (remaining : Nat) : Color :=
  reflectedColorWith (fun ray => self.color_at ray (remaining - 1)) comps remaining

/-- Source `World::refracted_color` from world.rs. -/
def World.refracted_color (self : World) (comps : Computations) (remaining : Nat) : Color :=
  refractedColorWith (fun ray => self.color_at ray (remaining - 1)) comps remaining

/-! Specification-side definitions, written from the spec's words, to be
compared with the definitions above that were translated from the source. -/

/-- Spec §4.6, written from the spec's words: ambient always included; diffuse
and specular black in shadow or when the light is behind the surface;
otherwise diffuse proportional to `lightv·normalv`, and specular governed by
`reflectv = (−lightv).reflect(normalv)` against the eye. -/
def lightingSpec (m : Material) (object : Object) (light : PointLight)
    (point : Point) (eyev normalv : Vector) (in_shadow : Bool) : Color :=
  let base :=
    match m.pattern with
    | some p => p.pattern_at_object object point
    | none => m.color
  let effective_color := base * light.intensity
  let lightv := (light.position - point).normalize
  let ambient := effective_color * m.ambient
  let diffuse :=
    if in_shadow ∨ lightv.dot normalv < 0 then Color.black
    else effective_color * m.diffuse * lightv.dot normalv
  let specular :=
    if in_shadow ∨ lightv.dot normalv < 0 then Color.black
    else
      let reflectv := (-lightv).reflect normalv
      if reflectv.dot eyev ≤ 0 then Color.black
      else light.intensity * m.specular * powQ (reflectv.dot eyev) m.shininess
  ambient + diffuse + specular

/-- Collections sorted ascending by the ray parameter `t`. -/
def sortedByT (l : List Intersection) : Prop := List.Sorted leT l

instance : DecidablePred sortedByT := fun l =>
  inferInstanceAs (Decidable (List.Pairwise leT l))

/-- The contract of `slice::sort_unstable`: the output is some permutation of
the input that is sorted; the relative order of equal elements is not
specified. -/
def sortOutcome (input output : List Intersection) : Prop :=
  output.Perm input ∧ sortedByT output

instance (input output : List Intersection) : Decidable (sortOutcome input output) :=
  inferInstanceAs (Decidable (_ ∧ _))

/-- Possible results of `Intersections::push` under the `sort_unstable`
contract. -/
def pushOutcome (xs : Intersections) (element : Intersection)
    (out : Intersections) : Prop :=
  sortOutcome (xs ++ [element]) out

instance (xs : Intersections) (e : Intersection) (out : Intersections) :
    Decidable (pushOutcome xs e out) :=
  inferInstanceAs (Decidable (sortOutcome _ _))

/-- Possible results of `Intersections::append` under the `sort_unstable`
contract. -/
def appendOutcome (xs elements : Intersections) (out : Intersections) : Prop :=
  sortOutcome (xs ++ elements) out

/-- Possible results of `World::intersect` under the `sort_unstable`
contract: a sorted permutation of the concatenation of every object's
intersections. -/
def intersectOutcome (w : World) (r : Ray) (out : Intersections) : Prop :=
  sortOutcome (w.objects.foldl (fun xs o => xs ++ o.intersect r) []) out

/-- Containment stack built by toggling each listed intersection's object in
turn (spec §4.5 step 2). -/
def buildStack (l : List Intersection) : List (Nat × ℚ) :=
  l.foldl (fun cs i => containersToggle cs i.object) []

/-- Spec §4.7, written from the spec's words: per-light shadow-tested Phong
contributions accumulated over the lights, plus one reflected and one
refracted contribution in total. -/
def shadeHitSpecOnce (w : World) (comps : Computations) (remaining : Nat) : Color :=
  (w.lights.foldl
      (fun acc light =>
        acc + comps.object.material.lighting comps.object light comps.over_point
          comps.eyev comps.normalv (w.is_shadowed light.position comps.over_point))
      Color.black)
    + w.reflected_color comps remaining + w.refracted_color comps remaining

/-! Concrete scenes used by the claims. -/

/-- A matte red unit sphere at the origin: ambient 1, diffuse and specular 0
(material fields in declaration order: color, ambient, diffuse, specular,
shininess, reflective, transparency, refractive index, pattern), so its Phong
contribution is exactly its color and no square root leaves the exact
fragment. -/
def redAmbientSphere : Object :=
  ⟨Shape.sphere, Transform.default,
   ⟨⟨1, 0, 0⟩, 1, 0, 0, 1, 0, 0, 1, none⟩, 0⟩

/-- A world holding the red ambient sphere and the same white point light
twice, exposing the per-light accumulation of `shade_hit`. -/
def twoLightWorld : World :=
  ⟨[redAmbientSphere],
   [⟨⟨0, 0, -11⟩, Color.white⟩, ⟨⟨0, 0, -11⟩, Color.white⟩]⟩

/-- Prepared computations for a half-reflective green surface viewed head-on
from in front of `twoLightWorld`'s sphere; its reflection ray hits the red
sphere. -/
def twoLightComps : Computations :=
  { t := 1,
    object := ⟨Shape.sphere, Transform.default,
      ⟨⟨0, 1, 0⟩, 1, 0, 0, 1, 1 / 2, 0, 1, none⟩, 1⟩,
    point := ⟨0, 0, -5⟩, eyev := ⟨0, 0, -1⟩, normalv := ⟨0, 0, -1⟩,
    reflectv := ⟨0, 0, 1⟩, inside := false, over_point := ⟨0, 0, -5⟩,
    under_point := ⟨0, 0, -5⟩, n1 := 1, n2 := 1 }

/-- Glass sphere of the spec's refractive-index scenario: scale 2, refractive
index 1.5. -/
def glassA : Object :=
  ⟨Shape.sphere, Transform.scaling 2 2 2,
   { Material.default with transparency := 1, refractive_index := 3 / 2 }, 0⟩

/-- Glass sphere of the scenario: translation (0,0,−0.25), refractive index
2.0. -/
def glassB : Object :=
  ⟨Shape.sphere, Transform.translation 0 0 (-1 / 4),
   { Material.default with transparency := 1, refractive_index := 2 }, 1⟩

/-- Glass sphere of the scenario: translation (0,0,0.25), refractive index
2.5. -/
def glassC : Object :=
  ⟨Shape.sphere, Transform.translation 0 0 (1 / 4),
   { Material.default with transparency := 1, refractive_index := 5 / 2 }, 2⟩

/-- The scenario ray along +Z from (0,0,−4). -/
def glassRay : Ray := ⟨⟨0, 0, -4⟩, ⟨0, 0, 1⟩⟩

/-- The six hits of the scenario in ascending order. -/
def glassXS : Intersections :=
  [⟨2, glassA⟩, ⟨11 / 4, glassB⟩, ⟨13 / 4, glassC⟩, ⟨19 / 4, glassB⟩,
   ⟨21 / 4, glassC⟩, ⟨6, glassA⟩]

/-- First of two value-identical glass spheres distinguished only by their
identity token. -/
def twinA : Object :=
  ⟨Shape.sphere, Transform.default,
   { Material.default with transparency := 1, refractive_index := 3 / 2 }, 10⟩

/-- Second value-identical glass sphere, distinct identity token. -/
def twinB : Object :=
  ⟨Shape.sphere, Transform.default,
   { Material.default with transparency := 1, refractive_index := 3 / 2 }, 20⟩

/-- A ray passing through both twins, and the four boundary hits. -/
def twinRay : Ray := ⟨⟨0, 0, -5⟩, ⟨0, 0, 1⟩⟩

/-- Interleaved enter/exit hits of the two twins along `twinRay`. -/
def twinXS : Intersections :=
  [⟨4, twinA⟩, ⟨17 / 4, twinB⟩, ⟨9 / 2, twinA⟩, ⟨19 / 4, twinB⟩]

/-- Source `World::empty` from world.rs. -/
def World.empty : World := ⟨[], []⟩

/-- The computations prepared for the first hit of `twoLightComps`'s
reflection ray on the red sphere (all fields exact). -/
def innerComps : Computations :=
  { t := 4, object := redAmbientSphere, point := ⟨0, 0, -1⟩, eyev := ⟨0, 0, -1⟩,
    normalv := ⟨0, 0, -1⟩, reflectv := ⟨0, 0, -1⟩, inside := false,
    over_point := ⟨0, 0, -10001 / 10000⟩, under_point := ⟨0, 0, -9999 / 10000⟩,
    n1 := 1, n2 := 1 }

/-! Helper lemmas. -/

theorem Vector.neg_def (a : Vector) : -a = (⟨-a.x, -a.y, -a.z⟩ : Vector) := rfl

theorem Vector.sub_def (a b : Vector) : a - b = (⟨a.x - b.x, a.y - b.y, a.z - b.z⟩ : Vector) := rfl

theorem Vector.smul_vdef (a : Vector) (r : ℚ) : a * r = (⟨a.x * r, a.y * r, a.z * r⟩ : Vector) := rfl

theorem Color.add_def (a b : Color) : a + b = (⟨a.r + b.r, a.g + b.g, a.b + b.b⟩ : Color) := rfl

theorem Color.mul_def (a b : Color) : a * b = (⟨a.r * b.r, a.g * b.g, a.b * b.b⟩ : Color) := rfl

theorem Color.smul_def (a : Color) (s : ℚ) : a * s = (⟨a.r * s, a.g * s, a.b * s⟩ : Color) := rfl

theorem sqrtQ_nonneg (x : ℚ) : 0 ≤ sqrtQ x := by
  unfold sqrtQ
  split
  · positivity
  · exact le_refl 0

/-- Reflection is linear in the incoming vector, so the source's
`-(lightv.reflect normalv)` agrees with the spec's
`(-lightv).reflect normalv`. -/
theorem neg_reflect (l n : Vector) : (-l).reflect n = -(l.reflect n) := by
  cases l
  cases n
  simp only [Vector.reflect, Vector.dot, Vector.neg_def, Vector.sub_def, Vector.smul_vdef,
    Vector.mk.injEq]
  refine ⟨by ring, by ring, by ring⟩

theorem Matrix.id_apply : ∀ i j : Fin 4, Matrix.id i j = if i = j then 1 else 0 := by decide

theorem Matrix.mulM_assoc (a b c : Matrix) : (a.mulM b).mulM c = a.mulM (b.mulM c) := by
  funext i j
  simp only [Matrix.mulM]
  ring

theorem Matrix.id_mulM (m : Matrix) : Matrix.id.mulM m = m := by
  funext i j
  simp only [Matrix.mulM, Matrix.id_apply]
  fin_cases i <;> simp

theorem Matrix.mulM_id (m : Matrix) : m.mulM Matrix.id = m := by
  funext i j
  simp only [Matrix.mulM, Matrix.id_apply]
  fin_cases j <;> simp

/-- The `(n1, n2)` loop never reaches a hit index at or beyond the end of the
list, so both indices keep their initial value 1. -/
theorem n1n2Loop_oob : ∀ (xs : List Intersection) (idx hit_index : Nat)
    (cs : List (Nat × ℚ)), idx + xs.length ≤ hit_index →
    n1n2Loop xs idx hit_index cs = (1, 1) := by
  intro xs
  induction xs with
  | nil => intro idx h cs _; rfl
  | cons i rest ih =>
      intro idx h cs hle
      have hne : idx ≠ h := by simp only [List.length_cons] at hle; omega
      simp only [n1n2Loop, if_neg hne]
      exact ih (idx + 1) h _ (by simp only [List.length_cons] at hle; omega)

/-- Projections of `prepare_computations` onto the refraction indices. -/
theorem prepare_computations_n1_n2 (self : Intersection) (r : Ray)
    (hit_index : Nat) (xs : Intersections) :
    (self.prepare_computations r hit_index xs).n1 = (n1n2Loop xs 0 hit_index []).1
    ∧ (self.prepare_computations r hit_index xs).n2 = (n1n2Loop xs 0 hit_index []).2 := by
  constructor <;> rfl

/-! Claim theorems. -/

/-- C10: `prepare_computations` is total in its hit index: when `hit_index` is
at or beyond the end of the intersection list (in particular on the empty
list), the containment-stack walk terminates without consulting any entry and
the resulting computations carry `n1 = 1` and `n2 = 1`. -/
theorem C10_prepare_computations_total_oob (xs : Intersections) (r : Ray)
    (hit_index : Nat) (self : Intersection) (hg : xs.length ≤ hit_index) :
    (self.prepare_computations r hit_index xs).n1 = 1
    ∧ (self.prepare_computations r hit_index xs).n2 = 1 := by
  have h := n1n2Loop_oob xs 0 hit_index [] (by omega)
  have hp := prepare_computations_n1_n2 self r hit_index xs
  rw [hp.1, hp.2, h]
  exact ⟨rfl, rfl⟩

/-- Witness for C10 at a singleton list and hit index 5. -/
theorem C10_witness :
    (([⟨1, Object.sphere 0⟩] : Intersections).length ≤ 5)
    ∧ ((Intersection.prepare_computations ⟨1, Object.sphere 0⟩
          ⟨⟨0, 0, -5⟩, ⟨0, 0, 1⟩⟩ 5 [⟨1, Object.sphere 0⟩]).n1 = 1
        ∧ (Intersection.prepare_computations ⟨1, Object.sphere 0⟩
            ⟨⟨0, 0, -5⟩, ⟨0, 0, 1⟩⟩ 5 [⟨1, Object.sphere 0⟩]).n2 = 1) :=
  ⟨by decide,
   C10_prepare_computations_total_oob [⟨1, Object.sphere 0⟩]
     ⟨⟨0, 0, -5⟩, ⟨0, 0, 1⟩⟩ 5 ⟨1, Object.sphere 0⟩ (by decide)⟩

/-- C9: transform composition multiplies forward matrices in order and inverse
matrices in reversed order, `inverse` swaps the two stored matrices without
recomputation, and both operations preserve the invariant that the stored
matrices are mutually inverse. -/
theorem C9_transform_pairing (A B : Transform) :
    A.mul B = ⟨A.m.mulM B.m, B.minv.mulM A.minv⟩
    ∧ A.inverse = ⟨A.minv, A.m⟩
    ∧ (A.m.mulM A.minv = Matrix.id → A.minv.mulM A.m = Matrix.id →
        B.m.mulM B.minv = Matrix.id → B.minv.mulM B.m = Matrix.id →
        (A.mul B).m.mulM (A.mul B).minv = Matrix.id
        ∧ (A.mul B).minv.mulM (A.mul B).m = Matrix.id
        ∧ A.inverse.m.mulM A.inverse.minv = Matrix.id
        ∧ A.inverse.minv.mulM A.inverse.m = Matrix.id) := by
  refine ⟨rfl, rfl, ?_⟩
  intro ha1 ha2 hb1 hb2
  refine ⟨?_, ?_, ha2, ha1⟩
  · show (A.m.mulM B.m).mulM (B.minv.mulM A.minv) = Matrix.id
    calc (A.m.mulM B.m).mulM (B.minv.mulM A.minv)
        = A.m.mulM ((B.m.mulM B.minv).mulM A.minv) := by
          rw [Matrix.mulM_assoc, Matrix.mulM_assoc]
      _ = A.m.mulM A.minv := by rw [hb1, Matrix.id_mulM]
      _ = Matrix.id := ha1
  · show (B.minv.mulM A.minv).mulM (A.m.mulM B.m) = Matrix.id
    calc (B.minv.mulM A.minv).mulM (A.m.mulM B.m)
        = B.minv.mulM ((A.minv.mulM A.m).mulM B.m) := by
          rw [Matrix.mulM_assoc, Matrix.mulM_assoc]
      _ = B.minv.mulM B.m := by rw [ha2, Matrix.id_mulM]
      _ = Matrix.id := hb2

/-- Witness for C9 at a translation and a scaling. -/
theorem C9_witness :
    ((Transform.translation 1 2 3).m.mulM (Transform.translation 1 2 3).minv = Matrix.id
      → (Transform.translation 1 2 3).minv.mulM (Transform.translation 1 2 3).m = Matrix.id
      → (Transform.scaling 2 3 4).m.mulM (Transform.scaling 2 3 4).minv = Matrix.id
      → (Transform.scaling 2 3 4).minv.mulM (Transform.scaling 2 3 4).m = Matrix.id
      → ((Transform.translation 1 2 3).mul (Transform.scaling 2 3 4)).m.mulM
          ((Transform.translation 1 2 3).mul (Transform.scaling 2 3 4)).minv = Matrix.id
        ∧ ((Transform.translation 1 2 3).mul (Transform.scaling 2 3 4)).minv.mulM
          ((Transform.translation 1 2 3).mul (Transform.scaling 2 3 4)).m = Matrix.id
        ∧ (Transform.translation 1 2 3).inverse.m.mulM
          (Transform.translation 1 2 3).inverse.minv = Matrix.id
        ∧ (Transform.translation 1 2 3).inverse.minv.mulM
          (Transform.translation 1 2 3).inverse.m = Matrix.id)
    ∧ ((Transform.translation 1 2 3).mul (Transform.scaling 2 3 4)).m.mulM
        ((Transform.translation 1 2 3).mul (Transform.scaling 2 3 4)).minv = Matrix.id :=
  ⟨(C9_transform_pairing (Transform.translation 1 2 3) (Transform.scaling 2 3 4)).2.2,
   ((C9_transform_pairing (Transform.translation 1 2 3) (Transform.scaling 2 3 4)).2.2
      (by with_unfolding_all decide) (by with_unfolding_all decide)
      (by with_unfolding_all decide) (by with_unfolding_all decide)).1⟩

/-- C7: reflected color is black on zero reflectivity or exhausted budget;
refracted color is black on zero transparency, exhausted budget, or total
internal reflection; `color_at` is black when the ray hits nothing — all as
ordinary outcomes of the respective branch. -/
theorem C7_black_outcomes (w : World) (comps : Computations) (remaining : Nat)
    (r : Ray) :
    (comps.object.material.reflective = 0 ∨ remaining = 0 →
      w.reflected_color comps remaining = Color.black)
    ∧ (comps.object.material.transparency = 0 ∨ remaining = 0 ∨
          1 < (comps.n1 / comps.n2) ^ 2 * (1 - comps.eyev.dot comps.normalv ^ 2) →
        w.refracted_color comps remaining = Color.black)
    ∧ ((w.intersect r).hit = none → w.color_at r remaining = Color.black) := by
  refine ⟨?_, ?_, ?_⟩
  · intro h
    simp only [World.reflected_color, reflectedColorWith, if_pos h]
  · intro h
    by_cases h1 : comps.object.material.transparency = 0 ∨ remaining = 0
    · simp only [World.refracted_color, refractedColorWith, if_pos h1]
    · have h2 : 1 < (comps.n1 / comps.n2) ^ 2 * (1 - comps.eyev.dot comps.normalv ^ 2) := by
        rcases h with h | h | h
        · exact absurd (Or.inl h) h1
        · exact absurd (Or.inr h) h1
        · exact h
      simp only [World.refracted_color, refractedColorWith, if_neg h1, if_pos h2]
  · intro h
    cases remaining with
    | zero =>
        show colorBody w (fun _ => Color.black) 0 r = Color.black
        simp only [colorBody, h]
    | succ n =>
        show colorBody w (colorGo w n) (n + 1) r = Color.black
        simp only [colorBody, h]

/-- Witness for C7: depth 0 blanks both secondary colors, and a ray in the
empty world hits nothing. -/
theorem C7_witness :
    World.empty.reflected_color twoLightComps 0 = Color.black
    ∧ World.empty.refracted_color twoLightComps 0 = Color.black
    ∧ World.empty.color_at ⟨⟨0, 0, 0⟩, ⟨0, 0, 1⟩⟩ 5 = Color.black :=
  ⟨(C7_black_outcomes World.empty twoLightComps 0 ⟨⟨0, 0, 0⟩, ⟨0, 0, 1⟩⟩).1 (Or.inr rfl),
   (C7_black_outcomes World.empty twoLightComps 0 ⟨⟨0, 0, 0⟩, ⟨0, 0, 1⟩⟩).2.1 (Or.inr (Or.inl rfl)),
   (C7_black_outcomes World.empty twoLightComps 5 ⟨⟨0, 0, 0⟩, ⟨0, 0, 1⟩⟩).2.2 (by decide)⟩

/-- The breaking loop computes, at any live hit index, the tops of the
containment stacks built from the prefix before the hit and from the prefix
including it. -/
theorem n1n2Loop_take : ∀ (xs : List Intersection) (idx hit_index : Nat)
    (cs : List (Nat × ℚ)), idx ≤ hit_index → hit_index - idx < xs.length →
    n1n2Loop xs idx hit_index cs
    = (topRefr ((xs.take (hit_index - idx)).foldl (fun c i => containersToggle c i.object) cs),
       topRefr ((xs.take (hit_index - idx + 1)).foldl (fun c i => containersToggle c i.object) cs)) := by
  intro xs
  induction xs with
  | nil => intro idx h cs _ hlt; simp at hlt
  | cons i rest ih =>
      intro idx h cs hle hlt
      by_cases heq : idx = h
      · subst heq
        simp [n1n2Loop, Nat.sub_self, List.take_succ_cons, List.foldl_cons]
      · have hlt' : idx < h := lt_of_le_of_ne hle heq
        have hrw : h - idx = (h - (idx + 1)) + 1 := by omega
        simp only [n1n2Loop, if_neg heq]
        rw [ih (idx + 1) h (containersToggle cs i.object) (by omega)
            (by simp only [List.length_cons] at hlt; omega), hrw]
        simp only [List.take_succ_cons, List.foldl_cons]

/-- C2: for a hit index inside an ascending intersection list, `n1` is the
refractive index atop the containment stack built by toggling the objects of
the prefix strictly before the hit (1 when empty) and `n2` the top after
additionally toggling the hit's own object; and the six-hit nested
glass-sphere scenario yields the pairs (1,1.5), (1.5,2), (2,2.5), (2.5,2.5),
(2.5,1.5), (1.5,1). -/
theorem C2_refraction_stack (xs : Intersections) (r : Ray) (hit_index : Nat)
    (self : Intersection) (_hs : sortedByT xs) (hlt : hit_index < xs.length) :
    ((self.prepare_computations r hit_index xs).n1
        = topRefr (buildStack (xs.take hit_index))
      ∧ (self.prepare_computations r hit_index xs).n2
        = topRefr (buildStack (xs.take (hit_index + 1))))
    ∧ (((⟨2, glassA⟩ : Intersection).prepare_computations glassRay 0 glassXS).n1 = 1
      ∧ ((⟨2, glassA⟩ : Intersection).prepare_computations glassRay 0 glassXS).n2 = 3 / 2
      ∧ ((⟨11 / 4, glassB⟩ : Intersection).prepare_computations glassRay 1 glassXS).n1 = 3 / 2
      ∧ ((⟨11 / 4, glassB⟩ : Intersection).prepare_computations glassRay 1 glassXS).n2 = 2
      ∧ ((⟨13 / 4, glassC⟩ : Intersection).prepare_computations glassRay 2 glassXS).n1 = 2
      ∧ ((⟨13 / 4, glassC⟩ : Intersection).prepare_computations glassRay 2 glassXS).n2 = 5 / 2
      ∧ ((⟨19 / 4, glassB⟩ : Intersection).prepare_computations glassRay 3 glassXS).n1 = 5 / 2
      ∧ ((⟨19 / 4, glassB⟩ : Intersection).prepare_computations glassRay 3 glassXS).n2 = 5 / 2
      ∧ ((⟨21 / 4, glassC⟩ : Intersection).prepare_computations glassRay 4 glassXS).n1 = 5 / 2
      ∧ ((⟨21 / 4, glassC⟩ : Intersection).prepare_computations glassRay 4 glassXS).n2 = 3 / 2
      ∧ ((⟨6, glassA⟩ : Intersection).prepare_computations glassRay 5 glassXS).n1 = 3 / 2
      ∧ ((⟨6, glassA⟩ : Intersection).prepare_computations glassRay 5 glassXS).n2 = 1) := by
  constructor
  · have hp := prepare_computations_n1_n2 self r hit_index xs
    have hl := n1n2Loop_take xs 0 hit_index [] (Nat.zero_le _) (by omega)
    rw [hp.1, hp.2, hl]
    exact ⟨rfl, rfl⟩
  · with_unfolding_all decide

/-- Witness for C2 at hit index 2 of the glass-sphere scenario. -/
theorem C2_witness :
    sortedByT glassXS ∧ 2 < glassXS.length
    ∧ (((⟨13 / 4, glassC⟩ : Intersection).prepare_computations glassRay 2 glassXS).n1
        = topRefr (buildStack (glassXS.take 2))
      ∧ ((⟨13 / 4, glassC⟩ : Intersection).prepare_computations glassRay 2 glassXS).n2
        = topRefr (buildStack (glassXS.take 3))) :=
  ⟨by with_unfolding_all decide, by decide,
   (C2_refraction_stack glassXS glassRay 2 ⟨13 / 4, glassC⟩
      (by with_unfolding_all decide) (by decide)).1⟩

/-- C6: two objects that agree on shape, transform and material but carry
different identity tokens are distinguishable, the containment stack keys on
the token — a value-identical object does not cancel the other's entry — and
a ray through the two value-identical glass twins tracks entering and exiting
each instance separately: (n1,n2) = (1.5,1.5) inside both and exiting the last
one yields n2 = 1. -/
theorem C6_identity_not_value_equality :
    (twinA.shape = twinB.shape ∧ twinA.transform = twinB.transform
      ∧ twinA.material = twinB.material ∧ twinA ≠ twinB ∧ twinA.uuid ≠ twinB.uuid)
    ∧ containersToggle [(twinA.uuid, 3 / 2)] twinB
        = [(twinA.uuid, 3 / 2), (twinB.uuid, twinB.material.refractive_index)]
    ∧ (((⟨17 / 4, twinB⟩ : Intersection).prepare_computations twinRay 1 twinXS).n1 = 3 / 2
      ∧ ((⟨17 / 4, twinB⟩ : Intersection).prepare_computations twinRay 1 twinXS).n2 = 3 / 2
      ∧ ((⟨19 / 4, twinB⟩ : Intersection).prepare_computations twinRay 3 twinXS).n1 = 3 / 2
      ∧ ((⟨19 / 4, twinB⟩ : Intersection).prepare_computations twinRay 3 twinXS).n2 = 1) := by
  with_unfolding_all decide

/-- The two quadratic roots are in ascending order: the coefficient `a` is a
sum of squares and the square root is nonnegative. -/
theorem roots_le (b s a : ℚ) (hs : 0 ≤ s) (ha : 0 ≤ a) :
    (-b - s) / (2 * a) ≤ (-b + s) / (2 * a) := by
  rcases eq_or_lt_of_le ha with heq | hlt
  · rw [← heq]
    norm_num
  · have h2a : (0 : ℚ) < 2 * a := by linarith
    exact (div_le_div_iff_of_pos_right h2a).mpr (by linarith)

theorem dot_self_nonneg (v : Vector) : 0 ≤ v.dot v := by
  simp only [Vector.dot]
  have hx := mul_self_nonneg v.x
  have hy := mul_self_nonneg v.y
  have hz := mul_self_nonneg v.z
  linarith

/-- C5: `Object::intersect` maps the ray through the object's inverse
transform, then for a sphere returns nothing exactly when the discriminant of
the standard quadratic is negative and otherwise exactly its two roots in
ascending order, and for a plane returns nothing exactly when the local
direction is parallel within epsilon and otherwise the single parameter
`-origin.y / direction.y`. -/
theorem C5_intersect_dispatch (o : Object) (r : Ray)
    (a b c disc : ℚ)
    (ha : a = (r.transform o.transform.inverse).direction.dot
        (r.transform o.transform.inverse).direction)
    (hb : b = 2 * (r.transform o.transform.inverse).direction.dot
        ((r.transform o.transform.inverse).origin - (⟨0, 0, 0⟩ : Point)))
    (hc : c = ((r.transform o.transform.inverse).origin - (⟨0, 0, 0⟩ : Point)).dot
        ((r.transform o.transform.inverse).origin - (⟨0, 0, 0⟩ : Point)) - 1)
    (hd : disc = b ^ 2 - 4 * a * c) :
    (o.shape = Shape.sphere →
      ((disc < 0 ↔ o.intersect r = [])
        ∧ (0 ≤ disc →
            o.intersect r
              = [⟨(-b - sqrtQ disc) / (2 * a), o⟩, ⟨(-b + sqrtQ disc) / (2 * a), o⟩]
            ∧ (-b - sqrtQ disc) / (2 * a) ≤ (-b + sqrtQ disc) / (2 * a))))
    ∧ (o.shape = Shape.plane →
        ((|(r.transform o.transform.inverse).direction.y| < EPSILON ↔ o.intersect r = [])
          ∧ (EPSILON ≤ |(r.transform o.transform.inverse).direction.y| →
              o.intersect r = [⟨-(r.transform o.transform.inverse).origin.y
                  / (r.transform o.transform.inverse).direction.y, o⟩]))) := by
  have hroots : (-b - sqrtQ disc) / (2 * a) ≤ (-b + sqrtQ disc) / (2 * a) :=
    roots_le b (sqrtQ disc) a (sqrtQ_nonneg disc) (ha ▸ dot_self_nonneg _)
  constructor
  · intro hsh
    have hints : o.intersect r
        = if disc < 0 then []
          else (Intersections.push [] ⟨(-b - sqrtQ disc) / (2 * a), o⟩).push
            ⟨(-b + sqrtQ disc) / (2 * a), o⟩ := by
      subst ha hb hc hd
      simp only [Object.intersect, hsh]
    by_cases hdisc : disc < 0
    · rw [hints, if_pos hdisc]
      refine ⟨⟨fun _ => rfl, fun _ => hdisc⟩, fun hge => absurd hdisc (not_lt.mpr hge)⟩
    · rw [hints, if_neg hdisc]
      have hpp : (Intersections.push [] ⟨(-b - sqrtQ disc) / (2 * a), o⟩).push
            ⟨(-b + sqrtQ disc) / (2 * a), o⟩
          = [⟨(-b - sqrtQ disc) / (2 * a), o⟩, ⟨(-b + sqrtQ disc) / (2 * a), o⟩] := by
        simp only [Intersections.push, sortI, List.nil_append, List.cons_append,
          List.insertionSort, List.orderedInsert]
        rw [if_pos (show leT ⟨(-b - sqrtQ disc) / (2 * a), o⟩
            ⟨(-b + sqrtQ disc) / (2 * a), o⟩ from hroots)]
      rw [hpp]
      exact ⟨⟨fun h => absurd h hdisc, fun h => absurd h (List.cons_ne_nil _ _)⟩,
        fun _ => ⟨rfl, hroots⟩⟩
  · intro hsh
    have hints : o.intersect r
        = if EPSILON ≤ |(r.transform o.transform.inverse).direction.y| then
            Intersections.push [] ⟨-(r.transform o.transform.inverse).origin.y
              / (r.transform o.transform.inverse).direction.y, o⟩
          else [] := by
      simp only [Object.intersect, hsh]
    by_cases hy : EPSILON ≤ |(r.transform o.transform.inverse).direction.y|
    · rw [hints, if_pos hy]
      have hp1 : Intersections.push [] ⟨-(r.transform o.transform.inverse).origin.y
            / (r.transform o.transform.inverse).direction.y, o⟩
          = [⟨-(r.transform o.transform.inverse).origin.y
              / (r.transform o.transform.inverse).direction.y, o⟩] := rfl
      rw [hp1]
      exact ⟨⟨fun h => absurd hy (not_le.mpr h), fun h => absurd h (List.cons_ne_nil _ _)⟩,
        fun _ => rfl⟩
    · rw [hints, if_neg hy]
      exact ⟨⟨fun _ => rfl, fun _ => not_le.mp hy⟩, fun h => absurd h hy⟩

/-- Witness for C5 at the default sphere and the default plane with concrete
rays. -/
theorem C5_witness :
    ((Object.sphere 0).shape = Shape.sphere →
      ((((-10 : ℚ)) ^ 2 - 4 * 1 * 24 < 0 ↔ (Object.sphere 0).intersect ⟨⟨0, 0, -5⟩, ⟨0, 0, 1⟩⟩ = [])
        ∧ (0 ≤ ((-10 : ℚ)) ^ 2 - 4 * 1 * 24 →
            (Object.sphere 0).intersect ⟨⟨0, 0, -5⟩, ⟨0, 0, 1⟩⟩
              = [⟨(-(-10 : ℚ) - sqrtQ (((-10 : ℚ)) ^ 2 - 4 * 1 * 24)) / (2 * 1), Object.sphere 0⟩,
                 ⟨(-(-10 : ℚ) + sqrtQ (((-10 : ℚ)) ^ 2 - 4 * 1 * 24)) / (2 * 1), Object.sphere 0⟩]
            ∧ (-(-10 : ℚ) - sqrtQ (((-10 : ℚ)) ^ 2 - 4 * 1 * 24)) / (2 * 1)
              ≤ (-(-10 : ℚ) + sqrtQ (((-10 : ℚ)) ^ 2 - 4 * 1 * 24)) / (2 * 1))))
    ∧ ((Object.plane 1).shape = Shape.plane →
        ((|(((⟨⟨0, 1, 0⟩, ⟨0, -1, 0⟩⟩ : Ray).transform
              (Object.plane 1).transform.inverse)).direction.y| < EPSILON
            ↔ (Object.plane 1).intersect ⟨⟨0, 1, 0⟩, ⟨0, -1, 0⟩⟩ = [])
          ∧ (EPSILON ≤ |(((⟨⟨0, 1, 0⟩, ⟨0, -1, 0⟩⟩ : Ray).transform
                (Object.plane 1).transform.inverse)).direction.y| →
              (Object.plane 1).intersect ⟨⟨0, 1, 0⟩, ⟨0, -1, 0⟩⟩
                = [⟨-(((⟨⟨0, 1, 0⟩, ⟨0, -1, 0⟩⟩ : Ray).transform
                      (Object.plane 1).transform.inverse)).origin.y
                    / (((⟨⟨0, 1, 0⟩, ⟨0, -1, 0⟩⟩ : Ray).transform
                      (Object.plane 1).transform.inverse)).direction.y, Object.plane 1⟩]))) :=
  ⟨(C5_intersect_dispatch (Object.sphere 0) ⟨⟨0, 0, -5⟩, ⟨0, 0, 1⟩⟩ 1 (-10) 24
      (((-10 : ℚ)) ^ 2 - 4 * 1 * 24) (by with_unfolding_all decide)
      (by with_unfolding_all decide) (by with_unfolding_all decide) rfl).1,
   (C5_intersect_dispatch (Object.plane 1) ⟨⟨0, 1, 0⟩, ⟨0, -1, 0⟩⟩
      _ _ _ _ rfl rfl rfl rfl).2⟩

/-- C8: the Phong lighting of material.rs coincides everywhere with the
spec's case description — ambient always included; diffuse and specular black
in shadow or with the light behind the surface; specular black against the
reflection direction and `intensity · specular · (reflectv·eyev)^shininess`
otherwise; no clamping. -/
theorem C8_lighting_matches_spec (m : Material) (o : Object) (light : PointLight)
    (point : Point) (eyev normalv : Vector) (in_shadow : Bool) :
    m.lighting o light point eyev normalv in_shadow
      = lightingSpec m o light point eyev normalv in_shadow := by
  simp only [Material.lighting, lightingSpec, neg_reflect]
  by_cases hc : ((light.position - point).normalize.dot normalv < 0 ∨ in_shadow = true)
  · rw [if_pos hc, if_pos (Or.symm hc), if_pos (Or.symm hc)]
    rfl
  · rw [if_neg hc, if_neg (fun h => hc (Or.symm h)), if_neg (fun h => hc (Or.symm h))]
    by_cases hr : (-((light.position - point).normalize.reflect normalv)).dot eyev ≤ 0
    · rw [if_pos hr, if_pos hr]
      rfl
    · rw [if_neg hr, if_neg hr]

instance : IsTotal Intersection leT := ⟨fun a b => le_total a.t b.t⟩

instance : IsTrans Intersection leT := ⟨fun _ _ _ h1 h2 => le_trans h1 h2⟩

theorem sortI_sorted (l : List Intersection) : sortedByT (sortI l) :=
  List.sorted_insertionSort leT l

theorem sortI_perm (l : List Intersection) : (sortI l).Perm l :=
  List.perm_insertionSort leT l

/-- A fold of plain concatenations is the accumulator followed by the joined
image of the list. -/
theorem foldl_append_eq (l : List Object) (f : Object → Intersections) :
    ∀ acc : Intersections,
    l.foldl (fun xs o => xs ++ f o) acc = acc ++ (l.map f).flatten := by
  induction l with
  | nil => intro acc; simp
  | cons o rest ih =>
      intro acc
      simp only [List.foldl_cons, List.map_cons, List.flatten_cons, ih (acc ++ f o),
        List.append_assoc]

/-- The append-and-resort fold of `World::intersect` is a permutation of the
concatenation of every object's intersections. -/
theorem worldFold_perm (objects : List Object) (r : Ray) :
    ∀ acc : Intersections,
    (objects.foldl (fun xs o => Intersections.append xs (o.intersect r)) acc).Perm
      (acc ++ (objects.map (fun o => o.intersect r)).flatten) := by
  induction objects with
  | nil => intro acc; simp
  | cons o rest ih =>
      intro acc
      simp only [List.foldl_cons, List.map_cons, List.flatten_cons]
      refine (ih (Intersections.append acc (o.intersect r))).trans ?_
      have h1 : (Intersections.append acc (o.intersect r)).Perm (acc ++ o.intersect r) :=
        sortI_perm _
      have h2 := h1.append_right ((rest.map (fun o => o.intersect r)).flatten)
      rw [List.append_assoc] at h2
      exact h2

/-- Source `World::intersect` satisfies the `sort_unstable` contract relative to the
concatenated per-object intersections. -/
theorem intersectOutcome_self (w : World) (r : Ray) :
    intersectOutcome w r (w.intersect r) := by
  simp only [World.intersect]
  refine ⟨?_, sortI_sorted _⟩
  have h := (sortI_perm _).trans (worldFold_perm w.objects r [])
  rw [foldl_append_eq w.objects (fun o => o.intersect r) []]
  exact h


/-- C4 (amended): every outcome of `push`, `append` and `World::intersect`
permitted by the `sort_unstable` contract is sorted ascending by `t`, the
executable operations satisfy that contract, the source comparator's
non-descending order coincides with `t ≤ t` on numeric values and puts `NaN`
after every numeric value — but the relative order of equal-`t` elements is
unspecified, not insertion order. -/
theorem C4_sorted_collections :
    (∀ xs e out, pushOutcome xs e out → sortedByT out)
    ∧ (∀ xs ys out, appendOutcome xs ys out → sortedByT out)
    ∧ (∀ w r out, intersectOutcome w r out → sortedByT out)
    ∧ (∀ xs e, pushOutcome xs e (Intersections.push xs e))
    ∧ (∀ xs ys, appendOutcome xs ys (Intersections.append xs ys))
    ∧ (∀ (w : World) (r : Ray), intersectOutcome w r (w.intersect r))
    ∧ (∀ q : ℚ, cmpF (some q) none = Ordering.lt ∧ cmpF none (some q) = Ordering.gt)
    ∧ (∀ a b : ℚ, cmpF (some a) (some b) ≠ Ordering.gt ↔ a ≤ b)
    ∧ (∀ l : List (Option ℚ), l.Pairwise (fun a b => cmpF a b ≠ Ordering.gt) →
        ∀ q : ℚ, ¬ List.Sublist [none, some q] l) := by
  refine ⟨fun _ _ _ h => h.2, fun _ _ _ h => h.2, fun _ _ _ h => h.2,
    fun xs e => ⟨sortI_perm _, sortI_sorted _⟩,
    fun xs ys => ⟨sortI_perm _, sortI_sorted _⟩,
    intersectOutcome_self, fun q => ⟨rfl, rfl⟩, ?_, ?_⟩
  · intro a b
    simp only [cmpF]
    by_cases hgt : a > b
    · rw [if_pos hgt]
      exact iff_of_false (fun h => h rfl) (not_le.mpr hgt)
    · rw [if_neg hgt]
      by_cases hlt : a < b
      · rw [if_pos hlt]
        exact iff_of_true (by decide) (le_of_lt hlt)
      · rw [if_neg hlt]
        exact iff_of_true (by decide) (not_lt.mp hgt)
  · intro l hp q hsub
    have h2 := hp.sublist hsub
    exact (List.pairwise_cons.mp h2).1 (some q) (List.mem_singleton.mpr rfl) rfl

/-- Counterexample to C4's stable-ties clause: pushing a second, value-equal
`t` may legally reorder the two equal elements, so insertion order is not
retained. -/
theorem C4_stability_counterexample :
    pushOutcome [⟨1, Object.sphere 0⟩] ⟨1, Object.sphere 1⟩
        [⟨1, Object.sphere 1⟩, ⟨1, Object.sphere 0⟩]
    ∧ ([⟨1, Object.sphere 1⟩, ⟨1, Object.sphere 0⟩] : Intersections)
        ≠ [⟨1, Object.sphere 0⟩, ⟨1, Object.sphere 1⟩] := by
  with_unfolding_all decide

/-- Witness for C4 at concrete collections and comparator values. -/
theorem C4_witness :
    sortedByT (Intersections.push [⟨2, Object.sphere 0⟩] ⟨1, Object.sphere 1⟩)
    ∧ (cmpF (some 1) none = Ordering.lt ∧ cmpF none (some 1) = Ordering.gt)
    ∧ (cmpF (some 1) (some 2) ≠ Ordering.gt ↔ (1 : ℚ) ≤ 2)
    ∧ ¬ List.Sublist [none, some 1] [some (1 : ℚ), none] :=
  ⟨C4_sorted_collections.1 [⟨2, Object.sphere 0⟩] ⟨1, Object.sphere 1⟩ _
      (by with_unfolding_all decide),
   C4_sorted_collections.2.2.2.2.2.2.1 1,
   C4_sorted_collections.2.2.2.2.2.2.2.1 1 2,
   C4_sorted_collections.2.2.2.2.2.2.2.2 [some 1, none] (by decide) 1⟩

/-- Unfolding of `hit` on a nonempty collection: the head is taken when its
parameter is nonnegative, otherwise the search continues with the index
shifted. -/
theorem hit_cons (x : Intersection) (xs : List Intersection) :
    Intersections.hit (x :: xs)
    = if 0 ≤ x.t then some (0, x)
      else (Intersections.hit xs).map (fun p => (p.1 + 1, p.2)) := by
  simp only [Intersections.hit, List.enum_cons']
  by_cases h : 0 ≤ x.t
  · rw [List.find?_cons_of_pos _ (by simpa using h), if_pos h]
  · rw [List.find?_cons_of_neg _ (by simpa using h), if_neg h, List.find?_map]
    rfl

theorem hit_none_of_all_neg : ∀ l : List Intersection,
    (∀ x ∈ l, x.t < 0) → Intersections.hit l = none := by
  intro l
  induction l with
  | nil => intro _; rfl
  | cons z zs ih =>
      intro hneg
      rw [hit_cons, if_neg (not_le.mpr (hneg z (List.mem_cons_self z zs))),
        ih (fun x hx => hneg x (List.mem_cons_of_mem z hx))]
      rfl

theorem hit_some_of_exists_nonneg : ∀ l : List Intersection,
    (∃ x ∈ l, 0 ≤ x.t) → ∃ k x, Intersections.hit l = some (k, x) := by
  intro l
  induction l with
  | nil =>
      rintro ⟨x, hx, _⟩
      exact absurd hx (List.not_mem_nil x)
  | cons z zs ih =>
      rintro ⟨x, hx, hxt⟩
      rw [hit_cons]
      by_cases hz : 0 ≤ z.t
      · exact ⟨0, z, by rw [if_pos hz]⟩
      · have hxzs : x ∈ zs := by
          rcases List.mem_cons.mp hx with he | hm
          · exact absurd (he ▸ hxt) hz
          · exact hm
        obtain ⟨k, y, hk⟩ := ih ⟨x, hxzs, hxt⟩
        exact ⟨k + 1, y, by rw [if_neg hz, hk]; rfl⟩

theorem hit_some_spec : ∀ (l : List Intersection) (k : Nat) (x : Intersection),
    Intersections.hit l = some (k, x) →
    l[k]? = some x ∧ 0 ≤ x.t
      ∧ ∀ j, j < k → ∀ y, l[j]? = some y → y.t < 0 := by
  intro l
  induction l with
  | nil => intro k x h; simp [Intersections.hit] at h
  | cons z zs ih =>
      intro k x h
      rw [hit_cons] at h
      by_cases hz : 0 ≤ z.t
      · rw [if_pos hz] at h
        simp only [Option.some.injEq, Prod.mk.injEq] at h
        obtain ⟨hk, hx⟩ := h
        subst hk
        subst hx
        exact ⟨by simp, hz, fun j hj => absurd hj (Nat.not_lt_zero j)⟩
      · rw [if_neg hz] at h
        obtain ⟨p, hp, hpe⟩ := Option.map_eq_some'.mp h
        simp only [Prod.mk.injEq] at hpe
        obtain ⟨hk, hx⟩ := hpe
        subst hk
        subst hx
        obtain ⟨hget, hxt, hmin⟩ := ih p.1 p.2 (by rw [Prod.mk.eta]; exact hp)
        refine ⟨by simpa using hget, hxt, ?_⟩
        intro j hj y hy
        cases j with
        | zero =>
            simp only [List.getElem?_cons_zero, Option.some.injEq] at hy
            rw [← hy]
            exact not_le.mp hz
        | succ j' =>
            simp only [List.getElem?_cons_succ] at hy
            exact hmin j' (by omega) y hy

theorem hit_le_of_sorted : ∀ (l : List Intersection) (k : Nat) (x : Intersection),
    sortedByT l → Intersections.hit l = some (k, x) →
    ∀ y ∈ l, 0 ≤ y.t → x.t ≤ y.t := by
  intro l
  induction l with
  | nil => intro k x _ h; simp [Intersections.hit] at h
  | cons z zs ih =>
      intro k x hs h
      rw [hit_cons] at h
      by_cases hz : 0 ≤ z.t
      · rw [if_pos hz] at h
        simp only [Option.some.injEq, Prod.mk.injEq] at h
        obtain ⟨_, hx⟩ := h
        subst hx
        intro y hy _
        rcases List.mem_cons.mp hy with hyz | hyzs
        · rw [hyz]
        · exact (List.pairwise_cons.mp hs).1 y hyzs
      · rw [if_neg hz] at h
        obtain ⟨p, hp, hpe⟩ := Option.map_eq_some'.mp h
        simp only [Prod.mk.injEq] at hpe
        obtain ⟨_, hx⟩ := hpe
        subst hx
        intro y hy hyt
        rcases List.mem_cons.mp hy with hyz | hyzs
        · exact absurd (hyz ▸ hyt) hz
        · exact ih p.1 p.2 (List.pairwise_cons.mp hs).2
            (by rw [Prod.mk.eta]; exact hp) y hyzs hyt

/-- The hit's index and parameter are determined by the sequence of
parameters alone. -/
theorem hit_congr_map_t : ∀ l m : List Intersection,
    l.map Intersection.t = m.map Intersection.t →
    (Intersections.hit l).map (fun p => (p.1, p.2.t))
      = (Intersections.hit m).map (fun p => (p.1, p.2.t)) := by
  intro l
  induction l with
  | nil =>
      intro m hm
      have : m = [] := by
        cases m with
        | nil => rfl
        | cons w ws => simp at hm
      rw [this]
  | cons z zs ih =>
      intro m hm
      cases m with
      | nil => simp at hm
      | cons w ws =>
          simp only [List.map_cons, List.cons.injEq] at hm
          rw [hit_cons, hit_cons]
          by_cases hz : 0 ≤ z.t
          · rw [if_pos hz, if_pos (hm.1 ▸ hz)]
            simp [hm.1]
          · rw [if_neg hz, if_neg (hm.1 ▸ hz)]
            rw [Option.map_map, Option.map_map]
            have hcomp : ((fun p : Nat × Intersection => (p.1, p.2.t))
                  ∘ (fun p : Nat × Intersection => (p.1 + 1, p.2)))
                = (fun p : Nat × ℚ => (p.1 + 1, p.2))
                  ∘ (fun p : Nat × Intersection => (p.1, p.2.t)) := rfl
            rw [hcomp, ← Option.map_map, ← Option.map_map, ih ws hm.2]

/-- Sorted permutations of the same intersections list the same parameters in
the same order. -/
theorem sorted_perm_map_t_eq (l l' out out' : List Intersection)
    (h : sortOutcome l out) (h' : sortOutcome l' out') (hperm : l.Perm l') :
    out.map Intersection.t = out'.map Intersection.t := by
  have hp : (out.map Intersection.t).Perm (out'.map Intersection.t) :=
    ((h.1.trans hperm).trans h'.1.symm).map Intersection.t
  have hs : (out.map Intersection.t).Sorted (· ≤ ·) :=
    List.Pairwise.map Intersection.t (fun {a b} hab => hab) h.2
  have hs' : (out'.map Intersection.t).Sorted (· ≤ ·) :=
    List.Pairwise.map Intersection.t (fun {a b} hab => hab) h'.2
  exact List.eq_of_perm_of_sorted hp hs hs'

/-- C3: on any collection admitted by the sorting contract, `hit` is `none`
when every parameter is negative; it returns a result whenever some parameter
is nonnegative, namely the element of the sorted list at the returned index,
whose parameter is nonnegative and minimal among the nonnegative ones; and
the returned index and parameter do not depend on the insertion order. -/
theorem C3_hit_selection (l out : List Intersection) (h : sortOutcome l out) :
    ((∀ x ∈ l, x.t < 0) → Intersections.hit out = none)
    ∧ ((∃ x ∈ l, 0 ≤ x.t) → ∃ k x, Intersections.hit out = some (k, x))
    ∧ (∀ k x, Intersections.hit out = some (k, x) →
        out[k]? = some x ∧ 0 ≤ x.t ∧ ∀ y ∈ l, 0 ≤ y.t → x.t ≤ y.t)
    ∧ (∀ l' out', l.Perm l' → sortOutcome l' out' →
        (Intersections.hit out).map (fun p => (p.1, p.2.t))
          = (Intersections.hit out').map (fun p => (p.1, p.2.t))) := by
  refine ⟨?_, ?_, ?_, ?_⟩
  · intro hneg
    exact hit_none_of_all_neg out (fun x hx => hneg x (h.1.mem_iff.mp hx))
  · rintro ⟨x, hx, hxt⟩
    exact hit_some_of_exists_nonneg out ⟨x, h.1.mem_iff.mpr hx, hxt⟩
  · intro k x hk
    obtain ⟨hget, hxt, _⟩ := hit_some_spec out k x hk
    exact ⟨hget, hxt,
      fun y hy hyt => hit_le_of_sorted out k x h.2 hk y (h.1.mem_iff.mpr hy) hyt⟩
  · intro l' out' hperm h'
    exact hit_congr_map_t out out' (sorted_perm_map_t_eq l l' out out' h h' hperm)

/-- Witness for C3 at a two-element collection: the all-negative premise,
the minimality and order-independence statements, and — with the nonnegative
parameter 2 in hand — an actual returned hit. -/
theorem C3_witness :
    ((∀ x ∈ ([⟨2, Object.sphere 0⟩, ⟨-1, Object.sphere 0⟩] : Intersections), x.t < 0) →
      Intersections.hit [⟨-1, Object.sphere 0⟩, ⟨2, Object.sphere 0⟩] = none)
    ∧ (∃ k x, Intersections.hit [⟨-1, Object.sphere 0⟩, ⟨2, Object.sphere 0⟩] = some (k, x))
    ∧ (∀ k x, Intersections.hit [⟨-1, Object.sphere 0⟩, ⟨2, Object.sphere 0⟩] = some (k, x) →
        ([⟨-1, Object.sphere 0⟩, ⟨2, Object.sphere 0⟩] : Intersections)[k]? = some x ∧ 0 ≤ x.t
          ∧ ∀ y ∈ ([⟨2, Object.sphere 0⟩, ⟨-1, Object.sphere 0⟩] : Intersections),
              0 ≤ y.t → x.t ≤ y.t)
    ∧ (∀ l' out', ([⟨2, Object.sphere 0⟩, ⟨-1, Object.sphere 0⟩] : Intersections).Perm l' →
        sortOutcome l' out' →
        (Intersections.hit [⟨-1, Object.sphere 0⟩, ⟨2, Object.sphere 0⟩]).map
            (fun p => (p.1, p.2.t))
          = (Intersections.hit out').map (fun p => (p.1, p.2.t))) :=
  have h := C3_hit_selection [⟨2, Object.sphere 0⟩, ⟨-1, Object.sphere 0⟩]
    [⟨-1, Object.sphere 0⟩, ⟨2, Object.sphere 0⟩] (by with_unfolding_all decide)
  ⟨h.1,
   h.2.1 ⟨⟨2, Object.sphere 0⟩, List.mem_cons_self _ _, by with_unfolding_all decide⟩,
   h.2.2.1, h.2.2.2⟩

/-- Secondary-color guard: zero reflectivity yields black regardless of the
recursion callback. -/
theorem reflectedColorWith_zero (recur : Ray → Color) (comps : Computations)
    (remaining : Nat) (h : comps.object.material.reflective = 0) :
    reflectedColorWith recur comps remaining = Color.black := by
  simp only [reflectedColorWith, if_pos (Or.inl h)]

/-- Secondary-color guard: zero transparency yields black regardless of the
recursion callback. -/
theorem refractedColorWith_zero (recur : Ray → Color) (comps : Computations)
    (remaining : Nat) (h : comps.object.material.transparency = 0) :
    refractedColorWith recur comps remaining = Color.black := by
  simp only [refractedColorWith, if_pos (Or.inl h)]

/-- Source `sqrtQ` is exact on squares: the square of a reduced rational squares
numerator and denominator separately. -/
theorem sqrtQ_of_sq (r : ℚ) (h : 0 ≤ r) : sqrtQ (r * r) = r := by
  have hnum : (r * r).num.natAbs = r.num.natAbs * r.num.natAbs := by
    rw [Rat.mul_self_num, Int.natAbs_mul]
  have hden : (r * r).den = r.den * r.den := Rat.mul_self_den r
  unfold sqrtQ
  rw [if_pos ⟨mul_self_nonneg r, by rw [hnum, Nat.sqrt_eq], by rw [hden, Nat.sqrt_eq]⟩,
    hnum, Nat.sqrt_eq, hden, Nat.sqrt_eq]
  have hn0 : 0 ≤ r.num := Rat.num_nonneg.mpr h
  rw [Int.cast_natAbs, abs_of_nonneg hn0]
  exact Rat.num_div_den r

/-- The vector from the nudged inner hit point to the light, and its exact
magnitude and normalization. -/
theorem c1_lightv_eval :
    ((⟨0, 0, -11⟩ : Point) - (⟨0, 0, -10001 / 10000⟩ : Point)) = (⟨0, 0, -99999 / 10000⟩ : Vector)
    ∧ (⟨0, 0, -99999 / 10000⟩ : Vector).magnitude = 99999 / 10000
    ∧ (⟨0, 0, -99999 / 10000⟩ : Vector).normalize = ⟨0, 0, -1⟩ := by
  have hmag : (⟨0, 0, -99999 / 10000⟩ : Vector).magnitude = 99999 / 10000 := by
    show sqrtQ _ = _
    rw [show ((0 : ℚ) * 0 + 0 * 0 + -99999 / 10000 * (-99999 / 10000))
        = (99999 / 10000 : ℚ) * (99999 / 10000) from by norm_num]
    exact sqrtQ_of_sq _ (by norm_num)
  refine ⟨by with_unfolding_all rfl, hmag, ?_⟩
  show (⟨0, 0, -99999 / 10000⟩ : Vector) * (1 / (⟨0, 0, -99999 / 10000⟩ : Vector).magnitude) = _
  rw [hmag]
  with_unfolding_all rfl

set_option maxRecDepth 2000 in
theorem c1_intersect_eval :
    twoLightWorld.intersect ⟨⟨0, 0, -5⟩, ⟨0, 0, 1⟩⟩
      = [⟨4, redAmbientSphere⟩, ⟨6, redAmbientSphere⟩] := by
  with_unfolding_all decide

set_option maxRecDepth 2000 in
theorem c1_hit_eval :
    Intersections.hit [⟨4, redAmbientSphere⟩, ⟨6, redAmbientSphere⟩]
      = some (0, ⟨4, redAmbientSphere⟩) := by
  with_unfolding_all decide

set_option maxRecDepth 3000 in
theorem c1_prepare_eval :
    Intersection.prepare_computations ⟨4, redAmbientSphere⟩ ⟨⟨0, 0, -5⟩, ⟨0, 0, 1⟩⟩ 0
      [⟨4, redAmbientSphere⟩, ⟨6, redAmbientSphere⟩] = innerComps := by
  with_unfolding_all rfl

set_option maxRecDepth 3000 in
theorem c1_shadow_hit_eval :
    (twoLightWorld.intersect ⟨⟨0, 0, -10001 / 10000⟩, ⟨0, 0, -1⟩⟩).hit = none := by
  with_unfolding_all decide

theorem c1_shadow_inner_eval :
    twoLightWorld.is_shadowed ⟨0, 0, -11⟩ (⟨0, 0, -10001 / 10000⟩ : Point) = false := by
  rw [World.is_shadowed, c1_lightv_eval.1, c1_lightv_eval.2.2, c1_shadow_hit_eval]

theorem c1_lighting_inner_eval :
    redAmbientSphere.material.lighting redAmbientSphere ⟨⟨0, 0, -11⟩, Color.white⟩
      (⟨0, 0, -10001 / 10000⟩ : Point) ⟨0, 0, -1⟩ ⟨0, 0, -1⟩ false = ⟨1, 0, 0⟩ := by
  simp only [Material.lighting, c1_lightv_eval.1, c1_lightv_eval.2.2]
  with_unfolding_all decide

set_option maxRecDepth 2000 in
theorem c1_shadow_outer_eval :
    twoLightWorld.is_shadowed ⟨0, 0, -11⟩ (⟨0, 0, -5⟩ : Point) = false := by
  with_unfolding_all decide

set_option maxRecDepth 2000 in
theorem c1_lighting_outer_eval :
    twoLightComps.object.material.lighting twoLightComps.object ⟨⟨0, 0, -11⟩, Color.white⟩
      (⟨0, 0, -5⟩ : Point) ⟨0, 0, -1⟩ ⟨0, 0, -1⟩ false = ⟨0, 1, 0⟩ := by
  with_unfolding_all decide

/-- The recursive shade of the reflection ray's hit: both lights contribute
the sphere's ambient red, nothing is shadowed, and the sphere is neither
reflective nor transparent. -/
theorem c1_inner_shade (recur : Ray → Color) :
    shadeHitWith twoLightWorld recur innerComps 4 = ⟨2, 0, 0⟩ := by
  simp only [shadeHitWith]
  rw [show twoLightWorld.lights
      = [⟨⟨0, 0, -11⟩, Color.white⟩, ⟨⟨0, 0, -11⟩, Color.white⟩] from rfl]
  simp only [List.foldl_cons, List.foldl_nil]
  rw [reflectedColorWith_zero recur innerComps 4 rfl,
    refractedColorWith_zero recur innerComps 4 rfl,
    show innerComps.over_point = (⟨0, 0, -10001 / 10000⟩ : Point) from rfl,
    show innerComps.eyev = (⟨0, 0, -1⟩ : Vector) from rfl,
    show innerComps.normalv = (⟨0, 0, -1⟩ : Vector) from rfl,
    show innerComps.object = redAmbientSphere from rfl,
    c1_shadow_inner_eval, c1_lighting_inner_eval]
  with_unfolding_all decide

theorem c1_color_at_inner :
    twoLightWorld.color_at ⟨⟨0, 0, -5⟩, ⟨0, 0, 1⟩⟩ 4 = ⟨2, 0, 0⟩ := by
  show colorBody twoLightWorld (colorGo twoLightWorld 3) 4 ⟨⟨0, 0, -5⟩, ⟨0, 0, 1⟩⟩ = _
  simp only [colorBody, c1_intersect_eval, c1_hit_eval, c1_prepare_eval]
  exact c1_inner_shade _

theorem c1_reflected_eval :
    twoLightWorld.reflected_color twoLightComps 5 = ⟨1, 0, 0⟩ := by
  simp only [World.reflected_color, reflectedColorWith]
  rw [if_neg (by with_unfolding_all decide :
      ¬(twoLightComps.object.material.reflective = 0 ∨ (5 : Nat) = 0))]
  have hray : (⟨twoLightComps.over_point, twoLightComps.reflectv⟩ : Ray)
      = ⟨⟨0, 0, -5⟩, ⟨0, 0, 1⟩⟩ := by with_unfolding_all decide
  rw [hray, show (5 : Nat) - 1 = 4 from rfl, c1_color_at_inner]
  with_unfolding_all decide

theorem c1_refracted_eval :
    twoLightWorld.refracted_color twoLightComps 5 = Color.black :=
  refractedColorWith_zero _ _ _ (by with_unfolding_all decide)

/-- C1: `shade_hit` adds the reflected and refracted contributions inside the
per-light fold, so a world with two lights receives two copies of the
reflected color; the spec's formula with a single copy in total gives a
different result at the same input. -/
theorem C1_shade_hit_secondary_per_light :
    World.shade_hit twoLightWorld twoLightComps 5 = ⟨2, 2, 0⟩
    ∧ shadeHitSpecOnce twoLightWorld twoLightComps 5 = ⟨1, 2, 0⟩
    ∧ ((⟨2, 2, 0⟩ : Color) ≠ ⟨1, 2, 0⟩) := by
  have hrefl : reflectedColorWith
        (fun ray => twoLightWorld.color_at ray (5 - 1)) twoLightComps 5 = ⟨1, 0, 0⟩ :=
    c1_reflected_eval
  have hrefr : refractedColorWith
        (fun ray => twoLightWorld.color_at ray (5 - 1)) twoLightComps 5 = Color.black :=
    c1_refracted_eval
  refine ⟨?_, ?_, by decide⟩
  · show shadeHitWith twoLightWorld (fun ray => twoLightWorld.color_at ray (5 - 1))
        twoLightComps 5 = ⟨2, 2, 0⟩
    simp only [shadeHitWith]
    rw [show twoLightWorld.lights
        = [⟨⟨0, 0, -11⟩, Color.white⟩, ⟨⟨0, 0, -11⟩, Color.white⟩] from rfl]
    simp only [List.foldl_cons, List.foldl_nil]
    rw [hrefl, hrefr,
      show twoLightComps.over_point = (⟨0, 0, -5⟩ : Point) from rfl,
      show twoLightComps.eyev = (⟨0, 0, -1⟩ : Vector) from rfl,
      show twoLightComps.normalv = (⟨0, 0, -1⟩ : Vector) from rfl,
      c1_shadow_outer_eval, c1_lighting_outer_eval]
    with_unfolding_all decide
  · simp only [shadeHitSpecOnce]
    rw [show twoLightWorld.lights
        = [⟨⟨0, 0, -11⟩, Color.white⟩, ⟨⟨0, 0, -11⟩, Color.white⟩] from rfl]
    simp only [List.foldl_cons, List.foldl_nil]
    rw [show twoLightComps.over_point = (⟨0, 0, -5⟩ : Point) from rfl,
      show twoLightComps.eyev = (⟨0, 0, -1⟩ : Vector) from rfl,
      show twoLightComps.normalv = (⟨0, 0, -1⟩ : Vector) from rfl,
      c1_shadow_outer_eval, c1_lighting_outer_eval, c1_reflected_eval, c1_refracted_eval]
    with_unfolding_all decide

end RT
